import Mathlib

/-!
Verification development for the Incident Aggregation & Escalation Engine of
the `realapp` repository (reference implementation:
`real-mobile-mvp/video-editor-api/src/main.py`).

The Python source is shallowly embedded as executable Lean definitions:

* dynamic JSON-like payloads become the inductive `Value`;
* `redact_string` / `redact_data` are modelled faithfully, including the three
  concrete secret-value regular expressions (`Bearer ...`, `sk-...`,
  `xox[pbars]-...`), Python `re.sub` left-to-right non-overlapping
  substitution, greedy quantifiers with the backtracking the trailing
  word-boundary assertion `\b` forces, and the depth / size / length caps;
* `IncidentManager.fingerprint`, `register`, `_apply_stale_resets` and `tail`
  become pure state-passing functions over an explicit `Db` value holding the
  `incident_events` and `incident_states` tables and the written report files;
* timestamps are modelled as integer seconds; the source stores second-precision
  ISO-8601 UTC strings whose lexicographic order (used by the SQL window query)
  coincides with chronological order;
* the SHA-256 digest used by `fingerprint` is modelled injectively by the
  digested string itself (`sha256Hex24`): equalities of fingerprints transfer
  exactly, and inequalities transfer up to collision-freeness of SHA-256.
-/

namespace RealApp

/-- Dynamic JSON-like values, the shape of event `context` payloads
(`Null | Bool | Number | String | Sequence | Map`).  Python floats are never
inspected by the engine (only passed through or serialized), so they are
modelled opaquely by an integer index. -/
inductive Value where
  | null : Value
  | bool : Bool → Value
  | int : Int → Value
  | float : Int → Value
  | str : String → Value
  | list : List Value → Value
  | dict : List (String × Value) → Value

/-- Mask token substituted for sensitive data (source: the literal used in
`redact_string` and `redact_data`). -/
def maskToken : String := "***"

/-- Marker substituted for a subtree once the recursion depth cap is passed
(source: `redact_data`, `depth > 8`). -/
def depthMarker : String := "***depth_limit***"

/-- Lowercase a string to a character list; models `re.IGNORECASE` matching of
the ASCII keyword patterns. -/
def lowerChars (s : String) : List Char := s.data.map Char.toLower

/-- Is `pre` a leading segment of `l`? (Boolean, kernel-evaluable.) -/
def leadsList : List Char → List Char → Bool
  | [], _ => true
  | _ :: _, [] => false
  | a :: as, b :: bs => a == b && leadsList as bs

/-- Does `needle` occur contiguously inside `hay`? (Boolean, kernel-evaluable.) -/
def containsList (needle : List Char) : List Char → Bool
  | [] => leadsList needle []
  | c :: rest => leadsList needle (c :: rest) || containsList needle rest

/-- The credential-shaped key alternatives of `SENSITIVE_KEY_RE`
(`token|password|passwd|pwd|cookie|authorization|secret|api[_-]?key`,
case-insensitive, matched anywhere inside the key). -/
def sensitiveKeyWords : List (List Char) :=
  [("token" : String), "password", "passwd", "pwd", "cookie", "authorization",
    "secret", "api_key", "api-key", "apikey"].map String.data

/-- Does the key hint match `SENSITIVE_KEY_RE` (an unanchored, case-insensitive
search for any of the credential-shaped alternatives)? -/
def sensitiveKey (key : String) : Bool :=
  sensitiveKeyWords.any (fun w => containsList w (lowerChars key))

/-- Python regex `\w` over the ASCII inputs the engine handles. -/
def isWordChar (c : Char) : Bool := c.isAlphanum || c == '_'

/-- Python regex `\s` over ASCII: space, tab, newline, carriage return,
vertical tab, form feed. -/
def isSpaceChar (c : Char) : Bool :=
  c == ' ' || c == '\t' || c == '\n' || c == '\r' || c == '\x0b' || c == '\x0c'

/-- Word-ness of an optional character; the virtual positions before the first
and after the last character count as non-word for `\b`. -/
def isWordOpt : Option Char → Bool
  | some c => isWordChar c
  | none => false

/-- The regex word boundary `\b` between two (optional) adjacent characters. -/
def wordBoundary (a b : Option Char) : Bool := isWordOpt a != isWordOpt b

/-- Case-insensitive literal match; returns the rest of the input after the
literal when it matches. -/
def matchCI : List Char → List Char → Option (List Char)
  | [], s => some s
  | _ :: _, [] => none
  | c :: cs, d :: ds => if c.toLower == d.toLower then matchCI cs ds else none

/-- Case-sensitive literal match; returns the rest of the input after the
literal when it matches. -/
def matchLit : List Char → List Char → Option (List Char)
  | [], s => some s
  | _ :: _, [] => none
  | c :: cs, d :: ds => if c == d then matchLit cs ds else none

/-- Character class `[A-Za-z0-9._~+/=-]` of the Bearer-token pattern. -/
def isBearerBodyChar (c : Char) : Bool :=
  c.isAlphanum || c == '.' || c == '_' || c == '~' || c == '+' || c == '/' ||
    c == '=' || c == '-'

/-- Match of `Bearer\s+[A-Za-z0-9._~+/=-]+` (IGNORECASE) at the head of the
input; returns the number of characters consumed.  Both quantifiers are
greedy; since the two character classes are disjoint, backtracking can never
turn a failure into a success, so maximal runs are faithful. -/
def tryBearer (s : List Char) : Option Nat :=
  match matchCI (("Bearer" : String).data) s with
  | none => none
  | some rest =>
    let ws := rest.takeWhile isSpaceChar
    if ws.isEmpty then none
    else
      let body := (rest.drop ws.length).takeWhile isBearerBodyChar
      if body.isEmpty then none else some (6 + ws.length + body.length)

/-- Match of `\bsk-[A-Za-z0-9]{8,}\b` (case-sensitive) at the head of the
input, `prev` being the character before it.  The run of `[A-Za-z0-9]` is
greedy; shortening it can never satisfy the trailing `\b` (the next character
would be alphanumeric), so only the maximal run is tested. -/
def trySk (prev : Option Char) (s : List Char) : Option Nat :=
  if isWordOpt prev then none
  else
    match matchLit (("sk-" : String).data) s with
    | none => none
    | some rest =>
      let body := rest.takeWhile Char.isAlphanum
      if body.length < 8 then none
      else if isWordOpt (rest.drop body.length).head? then none
      else some (3 + body.length)

/-- Character class `[A-Za-z0-9-]` of the Slack-token pattern. -/
def isXoxBodyChar (c : Char) : Bool := c.isAlphanum || c == '-'

/-- Candidate body lengths for the greedy `{8,}` quantifier, longest first. -/
def xoxCandidates (runLength : Nat) : List Nat :=
  (List.range (runLength + 1)).reverse

/-- Match of `\b(xox[pbars]-[A-Za-z0-9-]{8,})\b` (IGNORECASE) at the head of
the input.  Because `-` belongs to the body class but not to `\w`, the
trailing `\b` can force genuine backtracking of the greedy `{8,}`; the longest
body length whose following position is a word boundary is selected, exactly
as the regex engine does. -/
def tryXox (prev : Option Char) (s : List Char) : Option Nat :=
  if isWordOpt prev then none
  else
    match matchCI (("xox" : String).data) s with
    | none => none
    | some rest =>
      match rest with
      | [] => none
      | kind :: rest2 =>
        if [('p' : Char), 'b', 'a', 'r', 's'].contains kind.toLower then
          match rest2 with
          | [] => none
          | dash :: rest3 =>
            if dash == '-' then
              let run := rest3.takeWhile isXoxBodyChar
              let afterRun := (rest3.drop run.length).head?
              match (xoxCandidates run.length).find? (fun k =>
                  8 ≤ k &&
                    wordBoundary ((run.take k).getLast?)
                      (((run.drop k).head?).orElse (fun _ => afterRun))) with
              | some k => some (5 + k)
              | none => none
            else none
        else none

/-- One `pattern.sub("***", ...)` pass: scan left to right, replace each
leftmost non-overlapping match with the mask token and continue after it.
`prev` is the input character preceding the scan position (matches consult it
for `\b`); `fuel` bounds the recursion and is initialised with the input
length, which every step strictly decreases below. -/
def subMatches (m : Option Char → List Char → Option Nat) :
    Nat → Option Char → List Char → List Char
  | 0, _, s => s
  | _ + 1, _, [] => []
  | fuel + 1, prev, c :: rest =>
    match m prev (c :: rest) with
    | some n =>
      maskToken.data ++
        subMatches m fuel ((c :: rest).take n).getLast? ((c :: rest).drop n)
    | none => c :: subMatches m fuel (some c) rest

/-- Run one substitution pass over a whole character list. -/
def runSub (m : Option Char → List Char → Option Nat) (s : List Char) :
    List Char :=
  subMatches m s.length none s

/-- Model of `redact_string`: the three `SENSITIVE_VALUE_PATTERNS` passes in
source order (Bearer tokens, `sk-` keys, Slack-style tokens), each over the
output of the previous one. -/
def redactString (raw : String) : String :=
  ⟨runSub tryXox (runSub trySk (runSub (fun _ s => tryBearer s) raw.data))⟩

/-- Recursion core of `redact_data`, structurally recursive on the remaining
depth budget: the source checks `depth > 8` on entry and recurses with
`depth + 1`, which is exactly a budget of `9 - depth` further levels. -/
def redactDataFuel : Nat → Value → String → Value
  | 0, _, _ => .str depthMarker
  | _ + 1, .null, _ => .null
  | _ + 1, .str s, keyHint =>
    if sensitiveKey keyHint then .str maskToken
    else .str ⟨(redactString s).data.take 16000⟩
  | _ + 1, .bool b, _ => .bool b
  | _ + 1, .int n, _ => .int n
  | _ + 1, .float f, _ => .float f
  | fuel + 1, .list items, keyHint =>
    .list ((items.take 200).map (fun item => redactDataFuel fuel item keyHint))
  | fuel + 1, .dict pairs, _ =>
    .dict ((pairs.take 300).map (fun kv => (kv.1, redactDataFuel fuel kv.2 kv.1)))

/-- Model of `redact_data(value, key_hint, depth)`. -/
def redactData (value : Value) (keyHint : String) (depth : Nat) : Value :=
  redactDataFuel (9 - depth) value keyHint

/-- Model of `clip_text` on strings (Python slicing by code points). -/
def clipText (s : String) (limit : Nat) : String := ⟨s.data.take limit⟩

/-- Code-point lexicographic strict order on character lists, the order Python
uses to compare strings. -/
def lexLt : List Char → List Char → Bool
  | [], [] => false
  | [], _ :: _ => true
  | _ :: _, [] => false
  | a :: as, b :: bs => if a == b then lexLt as bs else decide (a.toNat < b.toNat)

/-- Python string `<`. -/
def strLt (a b : String) : Bool := lexLt a.data b.data

/-- Stable insertion into a list sorted ascending by a string key. -/
def insertAsc {α : Type} (key : α → String) (x : α) : List α → List α
  | [] => [x]
  | h :: t => if strLt (key h) (key x) then h :: insertAsc key x t else x :: h :: t

/-- Stable ascending sort by a string key, the behaviour of Python `sorted`. -/
def sortAsc {α : Type} (key : α → String) : List α → List α
  | [] => []
  | h :: t => insertAsc key h (sortAsc key t)

/-- Lowercase hexadecimal digit. -/
def hexDigitChar (n : Nat) : Char :=
  if n < 10 then Char.ofNat (48 + n) else Char.ofNat (87 + n)

/-- JSON string escaping as `json.dumps(..., ensure_ascii=True)` performs it:
the two-character shortcuts, `\u00xx` for other control characters and
`\uxxxx` for non-ASCII code points (characters beyond the basic multilingual
plane become surrogate pairs in CPython; the engine only serializes values in
the range modelled here). -/
def escapeChar (c : Char) : List Char :=
  if c == '"' then ['\\', '"']
  else if c == '\\' then ['\\', '\\']
  else if c == '\n' then ['\\', 'n']
  else if c == '\r' then ['\\', 'r']
  else if c == '\t' then ['\\', 't']
  else if c == '\x08' then ['\\', 'b']
  else if c == '\x0c' then ['\\', 'f']
  else if c.toNat < 32 || 126 < c.toNat then
    ['\\', 'u', hexDigitChar (c.toNat / 4096 % 16), hexDigitChar (c.toNat / 256 % 16),
      hexDigitChar (c.toNat / 16 % 16), hexDigitChar (c.toNat % 16)]
  else [c]

/-- Quote and escape a string for JSON output. -/
def jsonQuote (s : String) : String :=
  ⟨'"' :: s.data.foldr (fun c acc => escapeChar c ++ acc) ['"']⟩

/-- Serialization core of `json.dumps` (default separators) for `Value` trees,
structurally recursive on a depth budget.  Every value the engine serializes
has first passed `redact_data`, whose depth cap bounds nesting at ten levels,
far below the budget the engine definitions pass here. -/
def jsonDumpFuel (sortKeys : Bool) : Nat → Value → String
  | 0, _ => ""
  | _ + 1, .null => "null"
  | _ + 1, .bool b => if b then "true" else "false"
  | _ + 1, .int n => toString n
  | _ + 1, .float f => "<float " ++ toString f ++ ">"
  | _ + 1, .str s => jsonQuote s
  | fuel + 1, .list items =>
    "[" ++ String.intercalate (", ") (items.map (jsonDumpFuel sortKeys fuel)) ++ "]"
  | fuel + 1, .dict pairs =>
    let ps := if sortKeys then sortAsc (fun kv => kv.1) pairs else pairs
    "\x7b" ++ String.intercalate (", ")
      (ps.map (fun kv => jsonQuote kv.1 ++ ": " ++ jsonDumpFuel sortKeys fuel kv.2)) ++ "\x7d"

/-- Model of `json.dumps(value, ensure_ascii=True)` (insertion order kept). -/
def jsonDump (v : Value) : String := jsonDumpFuel false 64 v

/-- Model of `json.dumps(value, sort_keys=True, ensure_ascii=True)`. -/
def jsonDumpSorted (v : Value) : String := jsonDumpFuel true 64 v

/-- The fixed priority key list of `IncidentManager._primary_context`. -/
def priorityKeys : List String :=
  [("stage" : String), "event", "path", "route", "platform", "source", "reason",
    "code", "error_code", "request_id", "run_id", "job_id", "video_id"]

/-- Python `value in (None, "", [], {})`: the empty-ish values skipped by
`_primary_context`. -/
def isEmptyLike : Value → Bool
  | .null => true
  | .str s => s == ""
  | .list l => l.isEmpty
  | .dict d => d.isEmpty
  | _ => false

/-- Dictionary lookup (`context.get(key)`); context maps carry unique keys, so
first-match lookup models Python exactly. -/
def ctxGet (ctx : List (String × Value)) (k : String) : Option Value :=
  (ctx.find? (fun kv => kv.1 == k)).map (fun kv => kv.2)

/-- Keep a key only when it is present and not empty-ish. -/
def keptEntry (ctx : List (String × Value)) (k : String) : Option (String × Value) :=
  match ctxGet ctx k with
  | some v => if isEmptyLike v then none else some (k, v)
  | none => none

/-- Model of `IncidentManager._primary_context`: extract the priority keys; if
none of them contributes, fall back to the first eight keys in sorted order. -/
def primaryContext (ctx : List (String × Value)) : List (String × Value) :=
  let out := priorityKeys.filterMap (keptEntry ctx)
  if out.isEmpty then
    ((sortAsc (fun k => k) (ctx.map (fun kv => kv.1))).take 8).filterMap (keptEntry ctx)
  else out

/-- The string `IncidentManager.fingerprint` feeds to SHA-256: the three capped
fields and the sorted-key JSON dump of the primary context, joined by `|`. -/
def fingerprintRaw (errorType message stack : String)
    (context : List (String × Value)) : String :=
  clipText errorType 120 ++ "|" ++ clipText message 1600 ++ "|" ++
    clipText stack 6000 ++ "|" ++ jsonDumpSorted (.dict (primaryContext context))

/-- The 24-hex-character SHA-256 digest used as the fingerprint is modelled
injectively by the digested string itself: fingerprint equalities proved below
transfer exactly to the source, and inequalities transfer up to
collision-freeness of the cryptographic digest. -/
def sha256Hex24 (s : String) : String := s

/-- Model of `IncidentManager.fingerprint`. -/
def fingerprint (errorType message stack : String)
    (context : List (String × Value)) : String :=
  sha256Hex24 (fingerprintRaw errorType message stack context)

/-- Engine configuration after the normalisation performed by
`IncidentManager.__init__`. -/
structure Cfg where
  windowMinutes : Nat
  resetMinutes : Nat
  levelL1 : Nat
  levelL2 : Nat
  levelL3 : Nat
deriving DecidableEq, Repr

/-- Model of `IncidentManager.__init__`: clamp the window to at least one
minute, the reset delay to at least the window, and force the three level
thresholds to be at least one and non-decreasing. -/
def mkCfg (windowMinutes resetMinutes levelL1 levelL2 levelL3 : Nat) : Cfg :=
  let w := max 1 windowMinutes
  let r := max w resetMinutes
  let a := max 1 levelL1
  let b := max a levelL2
  let c := max b levelL3
  ⟨w, r, a, b, c⟩

/-- The default configuration (`window=15, reset=30, L1=3, L2=5, L3=8`). -/
def defaultCfg : Cfg := mkCfg 15 30 3 5 8

/-- Model of `IncidentManager.level_from_count`. -/
def levelFromCount (cfg : Cfg) (count : Nat) : Nat :=
  if cfg.levelL3 ≤ count then 3
  else if cfg.levelL2 ≤ count then 2
  else if cfg.levelL1 ≤ count then 1
  else 0

/-- One row of the append-only `incident_events` table.  Timestamps are
integer seconds; the source stores second-precision ISO-8601 strings whose
lexicographic order (used by the window query) is chronological order. -/
structure EventRow where
  fingerprint : String
  level : Nat
  count15m : Nat
  errorType : String
  message : String
  stack : String
  contextJson : String
  stage : String
  event : String
  traceId : String
  requestId : Option String
  runId : Option String
  ts : Int
  reportPath : Option String

/-- One row of the upserted `incident_states` table.  The last-event snapshot
is kept as the `Value` that the source stores as its JSON dump. -/
structure StateRow where
  fingerprint : String
  level : Nat
  count15m : Nat
  firstSeen : Int
  lastSeen : Int
  resetApplied : Bool
  lastEvent : Value
  lastTraceId : String
  lastRequestId : Option String
  lastRunId : Option String
  reportPath : Option String
  updatedAt : Int

/-- The persistent state: the two tables plus the report files written to the
incidents directory, in write order. -/
structure Db where
  events : List EventRow
  states : List StateRow
  reports : List String

/-- The empty store. -/
def emptyDb : Db := { events := [], states := [], reports := [] }

/-- The producer-supplied arguments of `IncidentManager.register`. -/
structure RegisterInput where
  errorType : String
  message : String
  stack : String
  context : List (String × Value)
  stage : String
  event : String
  traceId : String
  requestId : Option String
  runId : Option String

/-- The summary dictionary `register` returns to its caller. -/
structure RegResult where
  fingerprint : String
  level : Nat
  count15m : Nat
  resetApplied : Bool
  reportPath : Option String
  lastSeenAt : Int
deriving DecidableEq, Repr

/-- Extract the string of a string `Value`; `redact_data` applied to a string
always returns a string, so the fallback below is unreachable where this is
used. -/
def strOfValue : Value → String
  | .str s => s
  | _ => ""

/-- The `clip_text(redact_data(text, key), ...)` combination `register`
applies to each free-text input. -/
def redactToText (s key : String) : String := strOfValue (redactData (.str s) key 0)

/-- Redacted, capped error type (`safe_type`). -/
def safeTypeOf (inp : RegisterInput) : String := clipText (redactToText inp.errorType ("error_type")) 120

/-- Redacted, capped message (`safe_message`). -/
def safeMessageOf (inp : RegisterInput) : String := clipText (redactToText inp.message ("message")) 3000

/-- Redacted, capped stack (`safe_stack`). -/
def safeStackOf (inp : RegisterInput) : String := clipText (redactToText inp.stack ("stack")) 60000

/-- Redacted context (`safe_context`): `redact_data` keeps a dict a dict, and
any non-dict result would be wrapped under a `context` key. -/
def safeContextOf (inp : RegisterInput) : List (String × Value) :=
  match redactData (.dict inp.context) ("context") 0 with
  | .dict pairs => pairs
  | v => [(("context" : String), v)]

/-- The fingerprint `register` computes for its input. -/
def fpOf (inp : RegisterInput) : String :=
  fingerprint (safeTypeOf inp) (safeMessageOf inp) (safeStackOf inp) (safeContextOf inp)

/-- Lookup of the prior state row (`select * from incident_states where
fingerprint = ?`). -/
def prevOf (db : Db) (fp : String) : Option StateRow :=
  db.states.find? (fun s => s.fingerprint == fp)

/-- Start of the counting window, `now - window` (inclusive). -/
def windowStartOf (cfg : Cfg) (now : Int) : Int := now - (cfg.windowMinutes : Int) * 60

/-- The window query: how many stored events carry this fingerprint with
`event_ts >= now - window`. -/
def windowCountOf (cfg : Cfg) (db : Db) (fp : String) (now : Int) : Nat :=
  (db.events.filter (fun e => e.fingerprint == fp && decide (windowStartOf cfg now ≤ e.ts))).length

/-- `count_15m`: the window query plus one for the event being registered. -/
def countOf (cfg : Cfg) (db : Db) (fp : String) (now : Int) : Nat :=
  windowCountOf cfg db fp now + 1

/-- The reset flag: a prior state exists and `now - last_seen_at` is at least
the reset delay. -/
def resetAppliedOf (cfg : Cfg) (db : Db) (fp : String) (now : Int) : Bool :=
  match prevOf db fp with
  | some p => decide ((cfg.resetMinutes : Int) * 60 ≤ now - p.lastSeen)
  | none => false

/-- The sticky report path carried forward from the prior state
(`prev["report_path"] if prev and prev["report_path"] else None`; the
truthiness test also drops an empty string). -/
def stickyPathOf (db : Db) (fp : String) : Option String :=
  match prevOf db fp with
  | some p =>
    match p.reportPath with
    | some s => if s == "" then none else some s
    | none => none
  | none => none

/-- The prior level (`int(prev["level"]) if prev else 0`). -/
def prevLevelOf (db : Db) (fp : String) : Nat :=
  match prevOf db fp with
  | some p => p.level
  | none => 0

/-- The report trigger of `register`: `level >= 2 and (prev_level < 2 or
(prev_level < 3 and level >= 3) or not report_path)`. -/
def needReportOf (cfg : Cfg) (db : Db) (fp : String) (now : Int) : Bool :=
  let level := levelFromCount cfg (countOf cfg db fp now)
  decide (2 ≤ level) &&
    (decide (prevLevelOf db fp < 2) ||
      (decide (prevLevelOf db fp < 3) && decide (3 ≤ level)) ||
      decide (stickyPathOf db fp = none))

/-- The report file name, unique per fingerprint and generation second
(`incident-{fingerprint}-{stamp}.md`; the strftime stamp is modelled by the
second count itself). -/
def mkReportPath (fp : String) (now : Int) : String :=
  "incident-" ++ fp ++ "-" ++ toString now ++ ".md"

/-- Model of `IncidentManager.register` in the normal case where the report
file write succeeds: compute the fingerprint, reset flag, window count and
level, conditionally write a report, append the event row and upsert the
state row, and return the caller summary. -/
def register (cfg : Cfg) (db : Db) (now : Int) (inp : RegisterInput) : Db × RegResult :=
  let safeContext := safeContextOf inp
  let safeType := safeTypeOf inp
  let safeMessage := safeMessageOf inp
  let safeStack := safeStackOf inp
  let safeTrace := clipText (if inp.traceId == "" then "-" else inp.traceId) 160
  let safeRequest :=
    let t := clipText (inp.requestId.getD "") 160
    if t == "" then none else some t
  let safeRun :=
    let t := clipText (inp.runId.getD "") 160
    if t == "" then none else some t
  let safeStage := clipText inp.stage 120
  let safeEvent := clipText inp.event 160
  let fp := fpOf inp
  let resetApplied := resetAppliedOf cfg db fp now
  let count := countOf cfg db fp now
  let level := levelFromCount cfg count
  let needReport := needReportOf cfg db fp now
  let reportPath := if needReport then some (mkReportPath fp now) else stickyPathOf db fp
  let reports := if needReport then db.reports ++ [mkReportPath fp now] else db.reports
  let eventRow : EventRow :=
    { fingerprint := fp, level := level, count15m := count, errorType := safeType,
      message := safeMessage, stack := safeStack,
      contextJson := jsonDump (.dict safeContext), stage := safeStage,
      event := safeEvent, traceId := safeTrace, requestId := safeRequest,
      runId := safeRun, ts := now, reportPath := reportPath }
  let firstSeen :=
    match prevOf db fp with
    | some p => p.firstSeen
    | none => now
  let lastEvent : Value :=
    .dict [(("stage" : String), .str safeStage), (("event" : String), .str safeEvent),
      (("error_type" : String), .str safeType),
      (("message" : String), .str (clipText safeMessage 1200)),
      (("level" : String), .int (level : Int)),
      (("count_15m" : String), .int (count : Int)),
      (("ts" : String), .int now)]
  let newState : StateRow :=
    { fingerprint := fp, level := level, count15m := count, firstSeen := firstSeen,
      lastSeen := now, resetApplied := resetApplied, lastEvent := lastEvent,
      lastTraceId := safeTrace, lastRequestId := safeRequest, lastRunId := safeRun,
      reportPath := reportPath.orElse (fun _ => (prevOf db fp).bind (fun p => p.reportPath)),
      updatedAt := now }
  let states :=
    if (prevOf db fp).isSome then
      db.states.map (fun s => if s.fingerprint == fp then newState else s)
    else db.states ++ [newState]
  (⟨db.events ++ [eventRow], states, reports⟩,
    { fingerprint := fp, level := level, count15m := count,
      resetApplied := resetApplied, reportPath := reportPath, lastSeenAt := now })

/-- Model of `register` when the filesystem write inside `_write_report`
raises: the exception propagates out of `register` before either table is
touched, so the call produces no summary (`none`) and leaves the store
unchanged; a call that attempts no report write is unaffected. -/
def registerReportWriteFails (cfg : Cfg) (db : Db) (now : Int)
    (inp : RegisterInput) : Db × Option RegResult :=
  if needReportOf cfg db (fpOf inp) now then (db, none)
  else ((register cfg db now inp).1, some (register cfg db now inp).2)

/-- Model of `IncidentManager._apply_stale_resets`: force every state with a
positive level whose `last_seen_at` is strictly older than the reset cutoff to
level 0, count 0, `reset_applied = true`. -/
def applyStaleResets (cfg : Cfg) (db : Db) (now : Int) : Db :=
  { db with states := db.states.map (fun s =>
      if 0 < s.level ∧ s.lastSeen < now - (cfg.resetMinutes : Int) * 60 then
        { s with level := 0, count15m := 0, resetApplied := true, updatedAt := now }
      else s) }

/-- One row of the `tail` response. -/
structure TailRow where
  fingerprint : String
  level : Nat
  count15m : Nat
  lastSeenAt : Int
  lastEvent : Value
  lastTraceId : String
  lastRequestId : Option String
  lastRunId : Option String
  reportPath : Option String
  resetApplied : Bool

/-- Project a state row into a `tail` response row. -/
def tailRowOf (s : StateRow) : TailRow :=
  { fingerprint := s.fingerprint, level := s.level, count15m := s.count15m,
    lastSeenAt := s.lastSeen, lastEvent := s.lastEvent,
    lastTraceId := s.lastTraceId, lastRequestId := s.lastRequestId,
    lastRunId := s.lastRunId, reportPath := s.reportPath,
    resetApplied := s.resetApplied }

/-- Stable insertion for the descending `order by last_seen_at desc`; rows
with equal timestamps keep table order, as the row-order scan does. -/
def insertDesc (x : StateRow) : List StateRow → List StateRow
  | [] => [x]
  | h :: t => if h.lastSeen ≤ x.lastSeen then x :: h :: t else h :: insertDesc x t

/-- Stable sort of state rows by `last_seen_at` descending. -/
def sortByLastSeenDesc : List StateRow → List StateRow
  | [] => []
  | h :: t => insertDesc h (sortByLastSeenDesc t)

/-- The `where` clause of `tail`: the optional fingerprint filter (skipped for
an empty string, Python truthiness) and the optional minimum level filter
(only added when `min_level > 0`). -/
def tailKeep (fpFilter : Option String) (minLevel : Nat) (s : StateRow) : Bool :=
  (match fpFilter.bind (fun f => if f == "" then none else some f) with
    | some f => s.fingerprint == f
    | none => true) &&
  (if 0 < minLevel then decide (minLevel ≤ s.level) else true)

/-- Model of `IncidentManager.tail`: run the lazy stale sweep (persisting it),
filter, order by `last_seen_at` descending, truncate to `limit` rows and
return their summaries. -/
def tail (cfg : Cfg) (db : Db) (now : Int) (limit : Nat)
    (fpFilter : Option String) (minLevel : Nat) : Db × List TailRow :=
  let db' := applyStaleResets cfg db now
  let rows := sortByLastSeenDesc (db'.states.filter (tailKeep fpFilter minLevel))
  (db', (rows.take limit).map tailRowOf)

/-- Fold a sequence of `register` calls for one payload over the store,
returning the final store. -/
def regSeq (cfg : Cfg) : Db → RegisterInput → List Int → Db
  | db, _, [] => db
  | db, inp, t :: ts => regSeq cfg (register cfg db t inp).1 inp ts

/-- Fold a sequence of `register` calls for one payload over the store,
returning the per-call summaries in order. -/
def regResults (cfg : Cfg) : Db → RegisterInput → List Int → List RegResult
  | _, _, [] => []
  | db, inp, t :: ts => (register cfg db t inp).2 :: regResults cfg (register cfg db t inp).1 inp ts

/-- A fixed small payload used by the concrete scenarios below (the claims
constrain the engine, not the payload). -/
def sampleInput : RegisterInput :=
  { errorType := "E", message := "m", stack := "", context := [],
    stage := "s", event := "e", traceId := "t", requestId := none, runId := none }

/-- A second payload with a different message, hence a different fingerprint. -/
def sampleInput2 : RegisterInput :=
  { errorType := "E", message := "m2", stack := "", context := [],
    stage := "s", event := "e", traceId := "t", requestId := none, runId := none }

/-- Wrap a value in `n` singleton lists, to probe the recursion depth cap. -/
def nestedLists : Nat → Value → Value
  | 0, v => v
  | n + 1, v => .list [nestedLists n v]

/-- Unwrap up to `fuel` singleton-list layers. -/
def unwrapListsFuel : Nat → Value → Value
  | 0, v => v
  | n + 1, .list [v] => unwrapListsFuel n v
  | _ + 1, v => v

/-- Observe the integer wrapped in nested singleton lists, if any. -/
def probeInt (v : Value) : Option Int :=
  match unwrapListsFuel 20 v with
  | .int n => some n
  | _ => none

/-- Three rapid registrations of the sample payload (level 1 afterwards). -/
def dbThree : Db := regSeq defaultCfg emptyDb sampleInput [0, 5, 10]

/-- Four rapid registrations of the sample payload (level 1, no report yet). -/
def dbFour : Db := regSeq defaultCfg emptyDb sampleInput [0, 5, 10, 15]

/-- Five rapid registrations of one payload (level 2) followed by one
registration of a second payload with a more recent `last_seen_at`. -/
def dbMixed : Db :=
  regSeq defaultCfg (regSeq defaultCfg emptyDb sampleInput [0, 5, 10, 15, 20])
    sampleInput2 [25]

/-- A default state row, used only to name lookup results in witnesses. -/
def blankState : StateRow :=
  { fingerprint := "", level := 0, count15m := 0, firstSeen := 0, lastSeen := 0,
    resetApplied := false, lastEvent := .null, lastTraceId := "",
    lastRequestId := none, lastRunId := none, reportPath := none, updatedAt := 0 }

section Lemmas

/-- Ordering used by `tail`: more recent rows first. -/
def recentFirst (a b : StateRow) : Prop := b.lastSeen ≤ a.lastSeen

theorem mem_insertDesc {x a : StateRow} {l : List StateRow} :
    a ∈ insertDesc x l ↔ a = x ∨ a ∈ l := by
  induction l with
  | nil => simp [insertDesc]
  | cons h t ih =>
    rw [insertDesc]
    split
    · simp
    · simp only [List.mem_cons, ih]
      tauto

theorem insertDesc_eq_cons {x : StateRow} {l : List StateRow}
    (hl : ∀ b ∈ l, b.lastSeen ≤ x.lastSeen) : insertDesc x l = x :: l := by
  cases l with
  | nil => rfl
  | cons h t =>
    rw [insertDesc, if_pos (hl h (List.mem_cons_self h t))]

theorem sorted_insertDesc {x : StateRow} {l : List StateRow}
    (h : List.Pairwise recentFirst l) :
    List.Pairwise recentFirst (insertDesc x l) := by
  induction l with
  | nil => simp [insertDesc]
  | cons hd t ih =>
    rw [List.pairwise_cons] at h
    rw [insertDesc]
    split
    · rename_i hc
      refine List.pairwise_cons.mpr ⟨?_, List.pairwise_cons.mpr ⟨h.1, h.2⟩⟩
      intro b hb
      rcases List.mem_cons.mp hb with rfl | hb'
      · exact hc
      · exact le_trans (h.1 b hb') hc
    · rename_i hc
      refine List.pairwise_cons.mpr ⟨?_, ih h.2⟩
      intro b hb
      rcases mem_insertDesc.mp hb with rfl | hb'
      · unfold recentFirst
        omega
      · exact h.1 b hb'

theorem sorted_sortByLastSeenDesc (l : List StateRow) :
    List.Pairwise recentFirst (sortByLastSeenDesc l) := by
  induction l with
  | nil => simp [sortByLastSeenDesc]
  | cons h t ih => exact sorted_insertDesc ih

theorem mem_sortByLastSeenDesc {a : StateRow} {l : List StateRow} :
    a ∈ sortByLastSeenDesc l ↔ a ∈ l := by
  induction l with
  | nil => simp [sortByLastSeenDesc]
  | cons h t ih =>
    rw [sortByLastSeenDesc]
    rw [mem_insertDesc]
    simp [ih]

theorem length_insertDesc (x : StateRow) (l : List StateRow) :
    (insertDesc x l).length = l.length + 1 := by
  induction l with
  | nil => rfl
  | cons h t ih =>
    rw [insertDesc]
    split
    · simp
    · simp [ih]

theorem length_sortByLastSeenDesc (l : List StateRow) :
    (sortByLastSeenDesc l).length = l.length := by
  induction l with
  | nil => rfl
  | cons h t ih =>
    rw [sortByLastSeenDesc, length_insertDesc, ih]
    rfl

theorem filter_insertDesc (q : StateRow → Bool) (x : StateRow) (l : List StateRow)
    (hs : List.Pairwise recentFirst l) :
    (insertDesc x l).filter q =
      if q x then insertDesc x (l.filter q) else l.filter q := by
  induction l with
  | nil =>
    rw [insertDesc]
    by_cases hq : q x <;> simp [List.filter_cons, hq, insertDesc]
  | cons hd t ih =>
    rw [List.pairwise_cons] at hs
    rw [insertDesc]
    split
    · rename_i hc
      by_cases hq : q x
      · rw [List.filter_cons, if_pos hq, if_pos hq, insertDesc_eq_cons]
        intro b hb
        rcases List.mem_filter.mp hb with ⟨hb', _⟩
        rcases List.mem_cons.mp hb' with rfl | hb''
        · exact hc
        · exact le_trans (hs.1 b hb'') hc
      · rw [List.filter_cons, if_neg hq, if_neg hq]
    · rename_i hc
      by_cases hq : q x
      · by_cases hh : q hd
        · rw [List.filter_cons, if_pos hh, ih hs.2, if_pos hq, if_pos hq,
            List.filter_cons, if_pos hh, insertDesc, if_neg hc]
        · rw [List.filter_cons, if_neg hh, ih hs.2, if_pos hq, if_pos hq,
            List.filter_cons, if_neg hh]
      · by_cases hh : q hd
        · rw [List.filter_cons, if_pos hh, ih hs.2, if_neg hq, if_neg hq,
            List.filter_cons, if_pos hh]
        · rw [List.filter_cons, if_neg hh, ih hs.2, if_neg hq, if_neg hq,
            List.filter_cons, if_neg hh]

theorem filter_sortByLastSeenDesc (q : StateRow → Bool) (l : List StateRow) :
    (sortByLastSeenDesc l).filter q = sortByLastSeenDesc (l.filter q) := by
  induction l with
  | nil => rfl
  | cons hd t ih =>
    rw [sortByLastSeenDesc, filter_insertDesc q hd _ (sorted_sortByLastSeenDesc t), ih]
    rw [List.filter_cons]
    by_cases hq : q hd <;> simp [hq, sortByLastSeenDesc]

theorem filterMap_congr_on {α β : Type} (f g : α → Option β) (l : List α)
    (h : ∀ x ∈ l, f x = g x) : l.filterMap f = l.filterMap g := by
  induction l with
  | nil => rfl
  | cons hd t ih =>
    rw [List.filterMap_cons, List.filterMap_cons, h hd (List.mem_cons_self hd t),
      ih (fun x hx => h x (List.mem_cons_of_mem hd hx))]

theorem register_count (cfg : Cfg) (db : Db) (now : Int) (inp : RegisterInput) :
    (register cfg db now inp).2.count15m = countOf cfg db (fpOf inp) now := rfl

theorem register_level (cfg : Cfg) (db : Db) (now : Int) (inp : RegisterInput) :
    (register cfg db now inp).2.level = levelFromCount cfg (countOf cfg db (fpOf inp) now) := rfl

theorem register_resetApplied (cfg : Cfg) (db : Db) (now : Int) (inp : RegisterInput) :
    (register cfg db now inp).2.resetApplied = resetAppliedOf cfg db (fpOf inp) now := rfl

theorem register_reports (cfg : Cfg) (db : Db) (now : Int) (inp : RegisterInput) :
    (register cfg db now inp).1.reports =
      (if needReportOf cfg db (fpOf inp) now then db.reports ++ [mkReportPath (fpOf inp) now]
        else db.reports) := rfl

theorem register_events_sig (cfg : Cfg) (db : Db) (now : Int) (inp : RegisterInput) :
    ((register cfg db now inp).1).events.map (fun e => (e.fingerprint, e.ts)) =
      db.events.map (fun e => (e.fingerprint, e.ts)) ++ [(fpOf inp, now)] := by
  simp [register]

theorem regSeq_events_sig (cfg : Cfg) (inp : RegisterInput) :
    ∀ (times : List Int) (db : Db),
      (regSeq cfg db inp times).events.map (fun e => (e.fingerprint, e.ts)) =
        db.events.map (fun e => (e.fingerprint, e.ts)) ++ times.map (fun t => (fpOf inp, t))
  | [], db => by simp [regSeq]
  | t :: ts, db => by
    rw [regSeq, regSeq_events_sig cfg inp ts, register_events_sig]
    simp

theorem countOf_eq_sig (cfg : Cfg) (db : Db) (fp : String) (now : Int) :
    countOf cfg db fp now =
      ((db.events.map (fun e => (e.fingerprint, e.ts))).countP
        (fun pt => pt.1 == fp && decide (windowStartOf cfg now ≤ pt.2))) + 1 := by
  rw [countOf, windowCountOf, ← List.countP_eq_length_filter, List.countP_map]
  rfl

theorem needReportOf_iff (cfg : Cfg) (db : Db) (fp : String) (now : Int) :
    needReportOf cfg db fp now = true ↔
      (2 ≤ levelFromCount cfg (countOf cfg db fp now) ∧
        (prevLevelOf db fp < 2 ∨
          (prevLevelOf db fp < 3 ∧ 3 ≤ levelFromCount cfg (countOf cfg db fp now)) ∨
          stickyPathOf db fp = none)) := by
  simp only [needReportOf, Bool.and_eq_true, Bool.or_eq_true, decide_eq_true_eq]
  tauto

end Lemmas

section Claims

/-- Claim C2: for every occurrence count and configured thresholds
`L1 ≤ L2 ≤ L3` (as the constructor normalises them), the severity level is 3
for counts at least `L3`, else 2 at least `L2`, else 1 at least `L1`, else 0;
with the default thresholds 3/5/8, counts 1-2 map to level 0, 3-4 to level 1,
5-7 to level 2 and at least 8 to level 3, and registering one signature eight
times in immediate succession produces the level sequence
`[0,0,1,1,2,2,2,3]`. -/
theorem claim_C2_level_thresholds :
    (∀ w r a b c : Nat,
      (mkCfg w r a b c).levelL1 ≤ (mkCfg w r a b c).levelL2 ∧
      (mkCfg w r a b c).levelL2 ≤ (mkCfg w r a b c).levelL3 ∧
      ∀ count : Nat,
        (levelFromCount (mkCfg w r a b c) count = 3 ↔ (mkCfg w r a b c).levelL3 ≤ count) ∧
        (levelFromCount (mkCfg w r a b c) count = 2 ↔
          ((mkCfg w r a b c).levelL2 ≤ count ∧ count < (mkCfg w r a b c).levelL3)) ∧
        (levelFromCount (mkCfg w r a b c) count = 1 ↔
          ((mkCfg w r a b c).levelL1 ≤ count ∧ count < (mkCfg w r a b c).levelL2)) ∧
        (levelFromCount (mkCfg w r a b c) count = 0 ↔ count < (mkCfg w r a b c).levelL1)) ∧
    (∀ count : Nat,
      (1 ≤ count ∧ count ≤ 2 → levelFromCount defaultCfg count = 0) ∧
      (3 ≤ count ∧ count ≤ 4 → levelFromCount defaultCfg count = 1) ∧
      (5 ≤ count ∧ count ≤ 7 → levelFromCount defaultCfg count = 2) ∧
      (8 ≤ count → levelFromCount defaultCfg count = 3)) ∧
    (regResults defaultCfg emptyDb sampleInput [0, 5, 10, 15, 20, 25, 30, 35]).map
      (fun r => r.level) = [0, 0, 1, 1, 2, 2, 2, 3] := by
  refine ⟨?_, ?_, by decide⟩
  · intro w r a b c
    have h12 : (mkCfg w r a b c).levelL1 ≤ (mkCfg w r a b c).levelL2 := by
      simp only [mkCfg]
      omega
    have h23 : (mkCfg w r a b c).levelL2 ≤ (mkCfg w r a b c).levelL3 := by
      simp only [mkCfg]
      omega
    refine ⟨h12, h23, fun count => ?_⟩
    unfold levelFromCount
    split_ifs with hA hB hC <;>
      simp only [true_iff, false_iff, iff_true, iff_false] <;> omega
  · intro count
    have hL1 : defaultCfg.levelL1 = 3 := by decide
    have hL2 : defaultCfg.levelL2 = 5 := by decide
    have hL3 : defaultCfg.levelL3 = 8 := by decide
    unfold levelFromCount
    rw [hL1, hL2, hL3]
    refine ⟨fun h => ?_, fun h => ?_, fun h => ?_, fun h => ?_⟩ <;>
      split_ifs <;> omega

/-- Witness for C2: the default thresholds map a count of 8 to level 3. -/
theorem claim_C2_level_thresholds_witness : levelFromCount defaultCfg 8 = 3 :=
  (claim_C2_level_thresholds.2.1 8).2.2.2 (by omega)

/-- Claim C6: redaction replaces a string scalar wholesale with the mask token
whenever the key hint is credential-shaped, regardless of content; under a
non-sensitive key only the secret-value patterns are substituted inside the
string; on the spec's concrete context the four sensitive keys and the nested
password are masked exactly while the nested `safe` sibling survives verbatim;
and the redacted spec message contains neither of its secret substrings. -/
theorem claim_C6_redaction :
    (∀ s key depth, depth ≤ 8 → sensitiveKey key = true →
      redactData (.str s) key depth = .str maskToken) ∧
    (∀ s key depth, depth ≤ 8 → sensitiveKey key = false →
      redactData (.str s) key depth = .str ⟨(redactString s).data.take 16000⟩) ∧
    (redactData (.dict [(("authorization" : String), .str ("Bearer abcd")),
        (("api_key" : String), .str ("sk-AAAAAAAAAAAAAAAA")),
        (("token" : String), .str ("top-secret")),
        (("cookie" : String), .str ("session=abcd")),
        (("nested" : String), .dict [(("password" : String), .str ("123")),
          (("safe" : String), .str ("ok"))])]) ("context") 0
      = .dict [(("authorization" : String), .str maskToken),
        (("api_key" : String), .str maskToken),
        (("token" : String), .str maskToken),
        (("cookie" : String), .str maskToken),
        (("nested" : String), .dict [(("password" : String), .str maskToken),
          (("safe" : String), .str ("ok"))])]) ∧
    (redactString ("Bearer abc123xyz sk-SECRETKEY1234567890") = "*** ***") ∧
    (containsList (("abc123xyz" : String).data)
      ((redactString ("Bearer abc123xyz sk-SECRETKEY1234567890")).data) = false) ∧
    (containsList (("sk-SECRETKEY1234567890" : String).data)
      ((redactString ("Bearer abc123xyz sk-SECRETKEY1234567890")).data) = false) := by
  refine ⟨?_, ?_, by rfl, by decide, by decide, by decide⟩
  · intro s key depth hdep hk
    have h9 : 9 - depth = (8 - depth) + 1 := by omega
    rw [redactData, h9]
    simp only [redactDataFuel]
    rw [if_pos hk]
  · intro s key depth hdep hk
    have h9 : 9 - depth = (8 - depth) + 1 := by omega
    rw [redactData, h9]
    simp only [redactDataFuel]
    rw [if_neg (by rw [hk]; exact Bool.false_ne_true)]

/-- Witness for C6: a value under the key `token` is masked wholesale. -/
theorem claim_C6_redaction_witness :
    redactData (.str ("top-secret")) ("token") 0 = .str maskToken :=
  claim_C6_redaction.1 ("top-secret") ("token") 0 (by omega) (by decide)

/-- Counterexample for C10: an integer nested under nine list levels is not
returned unchanged; the depth cap replaces it with the depth-limit marker. -/
theorem claim_C10_counterexample :
    redactData (nestedLists 9 (.int 5)) "" 0 = nestedLists 9 (.str depthMarker) ∧
    redactData (nestedLists 9 (.int 5)) "" 0 ≠ nestedLists 9 (.int 5) :=
  ⟨by rfl, fun h => absurd (congrArg probeInt h) (by decide)⟩

/-- Claim C10 (amended): for every int, float, or bool scalar reached at
recursion depth at most 8 (the depth cap replaces deeper subtrees wholesale
with the depth-limit marker), `redact_data` returns the value unchanged for
every key hint, including credential-shaped ones; and only string scalars are
ever replaced by the mask token. -/
theorem claim_C10_scalars_amended :
    (∀ n : Int, ∀ key depth, depth ≤ 8 → redactData (.int n) key depth = .int n) ∧
    (∀ b : Bool, ∀ key depth, depth ≤ 8 → redactData (.bool b) key depth = .bool b) ∧
    (∀ f : Int, ∀ key depth, depth ≤ 8 → redactData (.float f) key depth = .float f) ∧
    (∀ v key depth, redactData v key depth = .str maskToken → ∃ s, v = .str s) := by
  have hstep : ∀ depth : Nat, depth ≤ 8 → 9 - depth = (8 - depth) + 1 := by omega
  refine ⟨?_, ?_, ?_, ?_⟩
  · intro n key depth hdep
    rw [redactData, hstep depth hdep]
    simp only [redactDataFuel]
  · intro b key depth hdep
    rw [redactData, hstep depth hdep]
    simp only [redactDataFuel]
  · intro f key depth hdep
    rw [redactData, hstep depth hdep]
    simp only [redactDataFuel]
  · intro v key depth h
    by_cases hdep : depth ≤ 8
    · rw [redactData, hstep depth hdep] at h
      cases v with
      | str s => exact ⟨s, rfl⟩
      | null =>
        simp only [redactDataFuel] at h
        exact Value.noConfusion h
      | bool b =>
        simp only [redactDataFuel] at h
        exact Value.noConfusion h
      | int n =>
        simp only [redactDataFuel] at h
        exact Value.noConfusion h
      | float f =>
        simp only [redactDataFuel] at h
        exact Value.noConfusion h
      | list items =>
        simp only [redactDataFuel] at h
        exact Value.noConfusion h
      | dict pairs =>
        simp only [redactDataFuel] at h
        exact Value.noConfusion h
    · rw [redactData, show 9 - depth = 0 from by omega] at h
      simp only [redactDataFuel] at h
      have hd : depthMarker = maskToken := Value.str.inj h
      exact absurd (congrArg String.data hd) (by decide)

/-- Witness for C10 (amended): an integer under the key `token` at depth 0 is
returned unchanged. -/
theorem claim_C10_scalars_amended_witness :
    redactData (.int 7) ("token") 0 = .int 7 :=
  claim_C10_scalars_amended.1 7 ("token") 0 (by omega)

/-- Counterexample for C1: with the default 15-minute window, two events of
one fresh fingerprint registered at seconds 0 and 600 lie within window
minutes of each other, and a third event at second 960 is registered more than
window minutes after the first; the claim predicts an effective count of 1,
but the code still counts the second event, returning `count_in_window = 2`. -/
theorem claim_C1_counterexample :
    ((600 : Int) - 0 ≤ (defaultCfg.windowMinutes : Int) * 60) ∧
    ((defaultCfg.windowMinutes : Int) * 60 < (960 : Int) - 0) ∧
    (register defaultCfg (regSeq defaultCfg emptyDb sampleInput [0, 600]) 960
        sampleInput).2.count15m = 2 :=
  ⟨by decide, by decide, by decide⟩

/-- Claim C1 (amended): `count_in_window` equals the number of previously
stored events with the same fingerprint whose timestamp lies in the inclusive
interval from `now - window` to `now`, plus one for the event being registered
(given the append-only log never holds future timestamps); hence the count is
at least 1; registering N events of a fresh fingerprint all within the window
of the Nth call yields `count_in_window = N`; and an (N+1)th event registered
more than window minutes after the last (not merely the first) of the N events
yields an effective count of 1. -/
theorem claim_C1_window_count_amended :
    (∀ cfg db now inp, (∀ e ∈ db.events, e.ts ≤ now) →
      (register cfg db now inp).2.count15m =
        (db.events.filter (fun e => e.fingerprint == fpOf inp &&
          (decide (windowStartOf cfg now ≤ e.ts) && decide (e.ts ≤ now)))).length + 1) ∧
    (∀ cfg db now inp, 1 ≤ (register cfg db now inp).2.count15m) ∧
    (∀ cfg db now inp (times : List Int),
      (∀ e ∈ db.events, e.fingerprint ≠ fpOf inp) →
      (∀ t ∈ times, windowStartOf cfg now ≤ t ∧ t ≤ now) →
      (register cfg (regSeq cfg db inp times) now inp).2.count15m = times.length + 1) ∧
    (∀ cfg db inp (times : List Int) (tLast tNew : Int),
      (∀ e ∈ db.events, e.fingerprint ≠ fpOf inp) →
      (∀ t ∈ times, t ≤ tLast) → tLast < windowStartOf cfg tNew →
      (register cfg (regSeq cfg db inp times) tNew inp).2.count15m = 1) := by
  refine ⟨?_, ?_, ?_, ?_⟩
  · intro cfg db now inp h
    rw [register_count, countOf, windowCountOf]
    have hfe : db.events.filter (fun e => e.fingerprint == fpOf inp &&
          decide (windowStartOf cfg now ≤ e.ts)) =
        db.events.filter (fun e => e.fingerprint == fpOf inp &&
          (decide (windowStartOf cfg now ≤ e.ts) && decide (e.ts ≤ now))) := by
      refine List.filter_congr ?_
      intro e he
      rw [decide_eq_true (h e he), Bool.and_true]
    rw [hfe]
  · intro cfg db now inp
    rw [register_count, countOf]
    omega
  · intro cfg db now inp times h0 ht
    rw [register_count, countOf_eq_sig, regSeq_events_sig, List.countP_append]
    have hz : (db.events.map (fun e => (e.fingerprint, e.ts))).countP
        (fun pt => pt.1 == fpOf inp && decide (windowStartOf cfg now ≤ pt.2)) = 0 := by
      rw [List.countP_eq_zero]
      intro pt hpt
      rcases List.mem_map.mp hpt with ⟨e, he, rfl⟩
      simp only [Bool.and_eq_true, beq_iff_eq, decide_eq_true_eq, not_and]
      intro hfp
      exact absurd hfp (h0 e he)
    have hf : (times.map (fun t => (fpOf inp, t))).countP
        (fun pt => pt.1 == fpOf inp && decide (windowStartOf cfg now ≤ pt.2)) =
          times.length := by
      have hall : ∀ pt ∈ times.map (fun t => (fpOf inp, t)),
          (fun pt => pt.1 == fpOf inp && decide (windowStartOf cfg now ≤ pt.2)) pt = true := by
        intro pt hpt
        rcases List.mem_map.mp hpt with ⟨t, htm, rfl⟩
        simp only [Bool.and_eq_true, beq_iff_eq, decide_eq_true_eq]
        exact ⟨trivial, (ht t htm).1⟩
      rw [List.countP_eq_length.mpr hall, List.length_map]
    rw [hz, hf]
    omega
  · intro cfg db inp times tLast tNew h0 ht hlt
    rw [register_count, countOf_eq_sig, regSeq_events_sig, List.countP_append]
    have hz : (db.events.map (fun e => (e.fingerprint, e.ts))).countP
        (fun pt => pt.1 == fpOf inp && decide (windowStartOf cfg tNew ≤ pt.2)) = 0 := by
      rw [List.countP_eq_zero]
      intro pt hpt
      rcases List.mem_map.mp hpt with ⟨e, he, rfl⟩
      simp only [Bool.and_eq_true, beq_iff_eq, decide_eq_true_eq, not_and]
      intro hfp
      exact absurd hfp (h0 e he)
    have hf : (times.map (fun t => (fpOf inp, t))).countP
        (fun pt => pt.1 == fpOf inp && decide (windowStartOf cfg tNew ≤ pt.2)) = 0 := by
      rw [List.countP_eq_zero]
      intro pt hpt
      rcases List.mem_map.mp hpt with ⟨t, htm, rfl⟩
      simp only [Bool.and_eq_true, beq_iff_eq, decide_eq_true_eq, not_and]
      intro _
      have h1 : t ≤ tLast := ht t htm
      omega
    rw [hz, hf]

/-- Witness for C1 (amended): registering a fresh fingerprint into the empty
store yields a count of one. -/
theorem claim_C1_window_count_amended_witness :
    (register defaultCfg (regSeq defaultCfg emptyDb sampleInput []) 0
        sampleInput).2.count15m = ([] : List Int).length + 1 :=
  claim_C1_window_count_amended.2.2.1 defaultCfg emptyDb 0 sampleInput []
    (by simp [emptyDb]) (by simp)

/-- Claim C3: `register` writes a new incident report file exactly when the
new level is at least 2 and (the stored prior level was below 2, or it was
below 3 while the new level reached 3, or no sticky report path exists yet);
concretely, for eight rapid registrations of one fresh signature no report is
produced on the first four calls, a report path appears on the fifth call
(level 2) and the report is replaced only at the transition into level 3 on
the eighth call. -/
theorem claim_C3_report_gating :
    (∀ cfg db now inp,
      ((register cfg db now inp).1.reports =
          db.reports ++ [mkReportPath (fpOf inp) now] ↔
        (2 ≤ levelFromCount cfg (countOf cfg db (fpOf inp) now) ∧
          (prevLevelOf db (fpOf inp) < 2 ∨
            (prevLevelOf db (fpOf inp) < 3 ∧
              3 ≤ levelFromCount cfg (countOf cfg db (fpOf inp) now)) ∨
            stickyPathOf db (fpOf inp) = none)))) ∧
    ((regResults defaultCfg emptyDb sampleInput [0, 5, 10, 15, 20, 25, 30, 35]).map
        (fun r => r.reportPath) =
      [none, none, none, none, some (mkReportPath (fpOf sampleInput) 20),
        some (mkReportPath (fpOf sampleInput) 20), some (mkReportPath (fpOf sampleInput) 20),
        some (mkReportPath (fpOf sampleInput) 35)]) ∧
    ((regSeq defaultCfg emptyDb sampleInput [0, 5, 10, 15]).reports = []) ∧
    ((regSeq defaultCfg emptyDb sampleInput [0, 5, 10, 15, 20, 25, 30]).reports =
      [mkReportPath (fpOf sampleInput) 20]) ∧
    ((regSeq defaultCfg emptyDb sampleInput [0, 5, 10, 15, 20, 25, 30, 35]).reports =
      [mkReportPath (fpOf sampleInput) 20, mkReportPath (fpOf sampleInput) 35]) := by
  refine ⟨?_, by decide, by decide, by decide, by decide⟩
  intro cfg db now inp
  rw [register_reports]
  by_cases hn : needReportOf cfg db (fpOf inp) now
  · rw [if_pos hn]
    exact ⟨fun _ => (needReportOf_iff cfg db (fpOf inp) now).mp hn, fun _ => rfl⟩
  · rw [if_neg hn]
    constructor
    · intro habs
      have hlen := congrArg List.length habs
      rw [List.length_append, List.length_cons, List.length_nil] at hlen
      omega
    · intro hcond
      exact absurd ((needReportOf_iff cfg db (fpOf inp) now).mpr hcond) hn

/-- Witness for C3: the fifth rapid registration triggers a report write. -/
theorem claim_C3_report_gating_witness :
    (register defaultCfg (regSeq defaultCfg emptyDb sampleInput [0, 5, 10, 15]) 20
        sampleInput).1.reports =
      (regSeq defaultCfg emptyDb sampleInput [0, 5, 10, 15]).reports ++
        [mkReportPath (fpOf sampleInput) 20] :=
  (claim_C3_report_gating.1 defaultCfg (regSeq defaultCfg emptyDb sampleInput [0, 5, 10, 15])
    20 sampleInput).mpr (by decide)

/-- Claim C5: on a `register` call for a fingerprint with prior state,
`reset_applied` is true exactly when `now - last_seen_at` reaches the reset
delay; the flag never overrides the count: the returned count is always the
window query plus one and the level is computed from that count; and, under
the default configuration, the first registration after such a silence (the
log holding no event of the fingerprint newer than `last_seen_at`) returns
`count_in_window = 1`, `level = 0`, `reset_applied = true`. -/
theorem claim_C5_reset_flag :
    (∀ cfg db now inp p, prevOf db (fpOf inp) = some p →
      ((register cfg db now inp).2.resetApplied = true ↔
        (cfg.resetMinutes : Int) * 60 ≤ now - p.lastSeen)) ∧
    (∀ cfg db now inp,
      (register cfg db now inp).2.count15m = windowCountOf cfg db (fpOf inp) now + 1 ∧
      (register cfg db now inp).2.level =
        levelFromCount cfg ((register cfg db now inp).2.count15m)) ∧
    (∀ db now inp p, prevOf db (fpOf inp) = some p →
      (∀ e ∈ db.events, e.fingerprint = fpOf inp → e.ts ≤ p.lastSeen) →
      (defaultCfg.resetMinutes : Int) * 60 ≤ now - p.lastSeen →
      ((register defaultCfg db now inp).2.count15m = 1 ∧
        (register defaultCfg db now inp).2.level = 0 ∧
        (register defaultCfg db now inp).2.resetApplied = true)) := by
  refine ⟨?_, fun cfg db now inp => ⟨rfl, rfl⟩, ?_⟩
  · intro cfg db now inp p hp
    rw [register_resetApplied, resetAppliedOf, hp]
    exact decide_eq_true_iff
  · intro db now inp p hp hev hsil
    have hwm : (defaultCfg.windowMinutes : Int) = 15 := by decide
    have hrm : (defaultCfg.resetMinutes : Int) = 30 := by decide
    rw [hrm] at hsil
    have hcountOf : countOf defaultCfg db (fpOf inp) now = 1 := by
      rw [countOf, windowCountOf]
      have hnil : db.events.filter (fun e => e.fingerprint == fpOf inp &&
          decide (windowStartOf defaultCfg now ≤ e.ts)) = [] := by
        rw [List.filter_eq_nil_iff]
        intro e he
        simp only [Bool.and_eq_true, beq_iff_eq, decide_eq_true_eq, not_and]
        intro hfp
        have h1 : e.ts ≤ p.lastSeen := hev e he hfp
        rw [windowStartOf, hwm]
        omega
      rw [hnil]
      rfl
    refine ⟨?_, ?_, ?_⟩
    · rw [register_count, hcountOf]
    · rw [register_level, hcountOf]
      decide
    · rw [register_resetApplied, resetAppliedOf, hp]
      rw [hrm]
      exact decide_eq_true hsil

/-- Witness for C5: after one registration at second 0, a registration at
second 1800 (exactly the reset delay) reports a fresh count with the reset
flag set. -/
theorem claim_C5_reset_flag_witness :
    (register defaultCfg (register defaultCfg emptyDb 0 sampleInput).1 1800
        sampleInput).2.count15m = 1 ∧
    (register defaultCfg (register defaultCfg emptyDb 0 sampleInput).1 1800
        sampleInput).2.level = 0 ∧
    (register defaultCfg (register defaultCfg emptyDb 0 sampleInput).1 1800
        sampleInput).2.resetApplied = true :=
  claim_C5_reset_flag.2.2 (register defaultCfg emptyDb 0 sampleInput).1 1800 sampleInput
    ((prevOf (register defaultCfg emptyDb 0 sampleInput).1 (fpOf sampleInput)).getD blankState)
    (by rfl) (by decide) (by decide)

/-- Claim C4: every `tail` call first persists the lazy stale sweep; the sweep
turns every stored state with positive level whose `last_seen_at` is strictly
older than the reset cutoff into level 0, count 0, `reset_applied = true`; no
row a `tail` call returns shows a positive level for a fingerprint silent
longer than the reset delay; and after three registrations (level 1),
advancing the clock by `reset_minutes + 1` and calling `tail` shows that
fingerprint at level 0, count 0, reset applied. -/
theorem claim_C4_stale_sweep :
    (∀ cfg db now limit fpF ml,
      (tail cfg db now limit fpF ml).1 = applyStaleResets cfg db now) ∧
    (∀ cfg db now s, s ∈ db.states → 0 < s.level →
      s.lastSeen < now - (cfg.resetMinutes : Int) * 60 →
      { s with level := 0, count15m := 0, resetApplied := true, updatedAt := now } ∈
        (applyStaleResets cfg db now).states) ∧
    (∀ cfg db now limit fpF ml r, r ∈ (tail cfg db now limit fpF ml).2 →
      r.lastSeenAt < now - (cfg.resetMinutes : Int) * 60 → r.level = 0) ∧
    ((prevOf dbThree (fpOf sampleInput)).map (fun s => s.level) = some 1) ∧
    ((tail defaultCfg dbThree 1870 10 none 0).2.map
      (fun r => (r.level, r.count15m, r.resetApplied)) = [(0, 0, true)]) := by
  refine ⟨fun cfg db now limit fpF ml => rfl, ?_, ?_, by decide, by decide⟩
  · intro cfg db now s hs h1 h2
    simp only [applyStaleResets]
    exact List.mem_map.mpr ⟨s, hs, by rw [if_pos ⟨h1, h2⟩]⟩
  · intro cfg db now limit fpF ml r hr hold
    simp only [tail] at hr
    rcases List.mem_map.mp hr with ⟨s, hs, rfl⟩
    have hs1 := List.take_subset _ _ hs
    have hs2 := mem_sortByLastSeenDesc.mp hs1
    have hs3 := (List.mem_filter.mp hs2).1
    simp only [applyStaleResets] at hs3
    rcases List.mem_map.mp hs3 with ⟨s0, hs0, heq⟩
    by_cases hc : 0 < s0.level ∧ s0.lastSeen < now - (cfg.resetMinutes : Int) * 60
    · rw [if_pos hc] at heq
      rw [← heq]
      rfl
    · rw [if_neg hc] at heq
      subst heq
      have hld : s0.lastSeen < now - (cfg.resetMinutes : Int) * 60 := hold
      rcases not_and_or.mp hc with h1 | h2
      · show s0.level = 0
        omega
      · exact absurd hld h2

/-- Witness for C4: the level-1 state left by three rapid registrations is
swept to level 0 when stale. -/
theorem claim_C4_stale_sweep_witness :
    { (prevOf dbThree (fpOf sampleInput)).getD blankState with
        level := 0, count15m := 0, resetApplied := true, updatedAt := (1870 : Int) } ∈
      (applyStaleResets defaultCfg dbThree 1870).states :=
  claim_C4_stale_sweep.2.1 defaultCfg dbThree 1870
    ((prevOf dbThree (fpOf sampleInput)).getD blankState)
    (List.mem_of_find?_eq_some
      (show dbThree.states.find? (fun s => s.fingerprint == fpOf sampleInput) =
        some ((prevOf dbThree (fpOf sampleInput)).getD blankState) from rfl))
    (by decide) (by decide)

/-- Counterexample for C7: `request_id` is itself in the priority key list of
`_primary_context`, so two calls with identical type, message and stack whose
contexts differ only in the random request id feed different strings to the
digest and therefore yield different fingerprints, contrary to the claim's
example. -/
theorem claim_C7_counterexample :
    fingerprint ("E") ("m") ("")
        [(("stage" : String), .str ("upload")), (("request_id" : String), .str ("r1"))] ≠
      fingerprint ("E") ("m") ("")
        [(("stage" : String), .str ("upload")), (("request_id" : String), .str ("r2"))] := by
  decide

/-- Claim C7 (amended): the fingerprint depends only on the capped type,
message and stack and on the primary context, with no dependency on event
ordering or time; two calls whose contexts agree on every priority-list key,
at least one of which is present and non-empty, yield the same fingerprint
even when other high-cardinality fields differ (random request ids do not
qualify, because `request_id` is itself a priority key); and calls differing
in the `stage`, `event`, or `reason` context fields yield different
fingerprints. -/
theorem claim_C7_fingerprint_amended :
    (∀ t1 t2 m1 m2 s1 s2 c1 c2,
      clipText t1 120 = clipText t2 120 → clipText m1 1600 = clipText m2 1600 →
      clipText s1 6000 = clipText s2 6000 → primaryContext c1 = primaryContext c2 →
      fingerprint t1 m1 s1 c1 = fingerprint t2 m2 s2 c2) ∧
    (∀ c1 c2, (∀ k ∈ priorityKeys, ctxGet c1 k = ctxGet c2 k) →
      (∃ k ∈ priorityKeys, ∃ v, ctxGet c1 k = some v ∧ isEmptyLike v = false) →
      primaryContext c1 = primaryContext c2) ∧
    (fingerprint ("E") ("m") ("")
        [(("stage" : String), .str ("a")), (("tag9x" : String), .str ("zzz"))] =
      fingerprint ("E") ("m") ("")
        [(("stage" : String), .str ("a")), (("tag9x" : String), .str ("qqq"))]) ∧
    (fingerprint ("E") ("m") ("") [(("stage" : String), .str ("a"))] ≠
      fingerprint ("E") ("m") ("") [(("stage" : String), .str ("b"))]) ∧
    (fingerprint ("E") ("m") ("") [(("event" : String), .str ("a"))] ≠
      fingerprint ("E") ("m") ("") [(("event" : String), .str ("b"))]) ∧
    (fingerprint ("E") ("m") ("") [(("reason" : String), .str ("a"))] ≠
      fingerprint ("E") ("m") ("") [(("reason" : String), .str ("b"))]) := by
  refine ⟨?_, ?_, by decide, by decide, by decide, by decide⟩
  · intro t1 t2 m1 m2 s1 s2 c1 c2 ht hm hs hc
    rw [fingerprint, fingerprint, fingerprintRaw, fingerprintRaw, ht, hm, hs, hc]
  · intro c1 c2 hagree hex
    rcases hex with ⟨k, hk, v, hv, hev⟩
    have hout : priorityKeys.filterMap (keptEntry c1) =
        priorityKeys.filterMap (keptEntry c2) :=
      filterMap_congr_on _ _ _ (fun x hx => by simp only [keptEntry, hagree x hx])
    have hmem : (k, v) ∈ priorityKeys.filterMap (keptEntry c1) := by
      refine List.mem_filterMap.mpr ⟨k, hk, ?_⟩
      simp [keptEntry, hv, hev]
    have hfalse : (priorityKeys.filterMap (keptEntry c1)).isEmpty = false := by
      cases hl : priorityKeys.filterMap (keptEntry c1) with
      | nil =>
        rw [hl] at hmem
        exact absurd hmem (List.not_mem_nil _)
      | cons x xs => rfl
    simp only [primaryContext, ← hout, hfalse]
    simp

/-- Witness for C7 (amended): two contexts agreeing on the priority keys with
`stage` present produce the same primary context. -/
theorem claim_C7_fingerprint_amended_witness :
    primaryContext [(("stage" : String), .str ("a")), (("tag9x" : String), .str ("zzz"))] =
      primaryContext [(("stage" : String), .str ("a")), (("tag9x" : String), .str ("qqq"))] :=
  claim_C7_fingerprint_amended.2.1 _ _ (by intro k hk; fin_cases hk <;> rfl)
    ⟨("stage"), by decide, .str ("a"), rfl, rfl⟩

/-- Counterexample for C8: with the default thresholds, the fifth rapid
registration of one signature triggers a report write; when the filesystem
write raises, `register` raises to its caller (no summary is produced) and
neither the `IncidentEvent` row nor the `IncidentState` row is persisted: the
store still holds exactly the four events and one state row it held before the
call. -/
theorem claim_C8_counterexample :
    needReportOf defaultCfg dbFour (fpOf sampleInput) 20 = true ∧
    registerReportWriteFails defaultCfg dbFour 20 sampleInput = (dbFour, none) ∧
    dbFour.events.length = 4 ∧
    dbFour.states.length = 1 :=
  ⟨by decide, by rfl, by decide, by decide⟩

/-- Claim C8 (amended): if the filesystem write of the report file fails
during a `register` call that attempts one, the exception propagates to the
caller before any insert, so neither the event row nor the state row is
persisted and the store is left unchanged (producers invoke `register` inside
`contextlib.suppress`, so their own error path continues); a call that
attempts no report write is unaffected by the writer. -/
theorem claim_C8_report_failure_amended :
    (∀ cfg db now inp, needReportOf cfg db (fpOf inp) now = true →
      registerReportWriteFails cfg db now inp = (db, none)) ∧
    (∀ cfg db now inp, needReportOf cfg db (fpOf inp) now = false →
      registerReportWriteFails cfg db now inp =
        ((register cfg db now inp).1, some (register cfg db now inp).2)) := by
  constructor <;> intro cfg db now inp h <;> simp [registerReportWriteFails, h]

/-- Witness for C8 (amended): the failing report write at the fifth
registration leaves the store unchanged and produces no summary. -/
theorem claim_C8_report_failure_amended_witness :
    registerReportWriteFails defaultCfg dbFour 20 sampleInput = (dbFour, none) :=
  claim_C8_report_failure_amended.1 defaultCfg dbFour 20 sampleInput (by decide)

/-- Counterexample for C9: with two stored states (the more recent at level 0,
the older at level 2) and `limit = 1`, `tail` with `min_level = 2` returns the
level-2 row, while post-filtering the unfiltered `tail` result by level ≥ 2
yields the empty list: the filtered call is neither equal to nor a subset of
the post-filtered result once the limit truncates. -/
theorem claim_C9_counterexample :
    ((tail defaultCfg dbMixed 25 1 none 2).2.map (fun r => (r.fingerprint, r.level)) =
      [(fpOf sampleInput, 2)]) ∧
    ((tail defaultCfg dbMixed 25 1 none 0).2.filter
      (fun r => decide (2 ≤ r.level))).length = 0 ∧
    (tail defaultCfg dbMixed 25 1 none 2).2 ≠
      (tail defaultCfg dbMixed 25 1 none 0).2.filter (fun r => decide (2 ≤ r.level)) :=
  ⟨by decide, by decide,
    fun h => absurd (congrArg List.length h) (by decide)⟩

/-- Claim C9 (amended): `tail` results are always ordered by `last_seen_at`
descending; and whenever `limit` does not truncate (it is at least the number
of stored states), the result of `tail` with a `min_level` filter equals the
result of post-filtering the unfiltered `tail` result by `level ≥ min_level`. -/
theorem claim_C9_tail_ordering_amended :
    (∀ cfg db now limit fpF ml,
      List.Pairwise (fun a b => b.lastSeenAt ≤ a.lastSeenAt)
        (tail cfg db now limit fpF ml).2) ∧
    (∀ cfg db now limit ml, db.states.length ≤ limit →
      (tail cfg db now limit none ml).2 =
        (tail cfg db now limit none 0).2.filter (fun r => decide (ml ≤ r.level))) := by
  constructor
  · intro cfg db now limit fpF ml
    have hs := sorted_sortByLastSeenDesc
      ((applyStaleResets cfg db now).states.filter (tailKeep fpF ml))
    have ht := hs.sublist (List.take_sublist limit _)
    exact List.pairwise_map.mpr (List.Pairwise.imp (fun h => h) ht)
  · intro cfg db now limit ml hlen
    simp only [tail]
    have hSlen : (applyStaleResets cfg db now).states.length ≤ limit := by
      have h1 : (applyStaleResets cfg db now).states.length = db.states.length := by
        simp [applyStaleResets]
      omega
    have h0filter : (applyStaleResets cfg db now).states.filter (tailKeep none 0) =
        (applyStaleResets cfg db now).states :=
      List.filter_eq_self.mpr (fun a _ => rfl)
    rw [h0filter]
    have htake0 : (sortByLastSeenDesc (applyStaleResets cfg db now).states).take limit =
        sortByLastSeenDesc (applyStaleResets cfg db now).states :=
      List.take_of_length_le (by rw [length_sortByLastSeenDesc]; exact hSlen)
    rw [htake0, List.filter_map, filter_sortByLastSeenDesc]
    rcases Nat.eq_zero_or_pos ml with hml | hml
    · subst hml
      rw [h0filter]
      have hkb : (applyStaleResets cfg db now).states.filter
          ((fun r : TailRow => decide ((0 : Nat) ≤ r.level)) ∘ tailRowOf) =
          (applyStaleResets cfg db now).states :=
        List.filter_eq_self.mpr (fun a _ => by simp)
      rw [hkb, htake0]
    · have hfeq : (applyStaleResets cfg db now).states.filter (tailKeep none ml) =
          (applyStaleResets cfg db now).states.filter
            ((fun r : TailRow => decide (ml ≤ r.level)) ∘ tailRowOf) := by
        refine List.filter_congr ?_
        intro s _
        simp [tailKeep, hml, Function.comp, tailRowOf]
      rw [hfeq]
      have htakef : (sortByLastSeenDesc ((applyStaleResets cfg db now).states.filter
            ((fun r : TailRow => decide (ml ≤ r.level)) ∘ tailRowOf))).take limit =
          sortByLastSeenDesc ((applyStaleResets cfg db now).states.filter
            ((fun r : TailRow => decide (ml ≤ r.level)) ∘ tailRowOf)) :=
        List.take_of_length_le (by
          rw [length_sortByLastSeenDesc]
          exact le_trans (List.length_filter_le _ _) hSlen)
      rw [htakef]

/-- Witness for C9 (amended): with a limit that does not truncate, filtering
by minimum level 2 agrees with post-filtering. -/
theorem claim_C9_tail_ordering_amended_witness :
    (tail defaultCfg dbMixed 25 10 none 2).2 =
      (tail defaultCfg dbMixed 25 10 none 0).2.filter (fun r => decide (2 ≤ r.level)) :=
  claim_C9_tail_ordering_amended.2 defaultCfg dbMixed 25 10 2 (by decide)

end Claims

end RealApp
